import Mathlib

/-!
Verification development for the imgseries transform-pipeline and
analysis-result caching/regeneration subsystem.

The Python implementation of the package is not shipped with this copy of
the repository (only the README, the packaging configuration and the
example notebooks are present), so the core is modelled from the
specification, constrained wherever the notebooks record concrete
observable behaviour (printed cache statistics, saved/loaded parameter
values, registry orderings, regenerate semantics).

Conventions of the shallow embedding:
an image is a flat list of integer pixel values; floating point values are
modelled as integers (the claims under study are about configuration,
caching and serialization structure, never about float arithmetic);
the opaque per-step numeric kernels (rotation, crop, filtering) are an
explicit parameter of the machinery, as the specification treats them as
external collaborators.
-/

/-- An image: a flat array of pixel values. -/
abbrev Image := List Int

/-- Modelled from the spec: a transform-step parameter value.
Scalars (numbers, strings, booleans) and short numeric sequences are the
supported payload types.  Python distinguishes lists, tuples and ranges;
the notebooks show all three in use (crop zones are tuples, subtraction
references are ranges), so the distinction is kept here. -/
inductive Val where
  | num (n : Int)
  | str (s : String)
  | bool (b : Bool)
  | vlist (xs : List Int)
  | vtuple (xs : List Int)
  | vrange (n : Nat)
deriving DecidableEq

/-- Modelled from the spec: JSON serialization normalizes Python sequence
values, since JSON has only one sequence type.  Tuples and ranges are
written out as JSON arrays and read back as lists. -/
def Val.toJson : Val → Val
  | .vtuple xs => .vlist xs
  | .vrange n => .vlist ((List.range n).map Int.ofNat)
  | v => v

/-- A value already in JSON-native form (scalar or list), which the JSON
round trip leaves untouched. -/
def Val.jsonNormal : Val → Bool
  | .vtuple _ => false
  | .vrange _ => false
  | _ => true

theorem Val.toJson_of_jsonNormal (v : Val) (h : v.jsonNormal = true) : v.toJson = v := by
  cases v <;> simp [Val.jsonNormal] at h ⊢ <;> rfl

/-- Modelled from the spec: serialize a parameter payload (the data
mapping of a step) for saving to the JSON transform file. -/
def to_mapping (d : List (String × Val)) : List (String × Val) :=
  d.map (fun p => (p.1, p.2.toJson))

/-- Modelled from the spec: restore a parameter payload from its saved
JSON form.  Loaded JSON values are used as the data directly. -/
def from_mapping (m : List (String × Val)) : List (String × Val) := m

/-- Modelled from the spec: a single named, stateful transform step with
an enabled flag and a serializable parameter payload. -/
structure Step where
  name : String
  enabled : Bool
  data : List (String × Val)
deriving DecidableEq

/-- A step participates in the pipeline when it is enabled.  A freshly
constructed step has empty data and is disabled; setting a parameter
enables it and reset disables it (matching active_transforms in the
notebooks, where a transform becomes active when its data is defined). -/
def Step.active (st : Step) : Bool := st.enabled

/-- The per-step numeric kernels (rotation, crop, filtering, custom
transforms) are opaque external collaborators in the spec: the machinery
is parametrized by the function giving, for a step name and its data, the
image operation it performs. -/
abbrev StepSem := String → List (String × Val) → Image → Image

/-- Apply one step: its kernel is a pure function of the input image and
the data of the step. -/
def applyStep (sem : StepSem) (st : Step) (img : Image) : Image :=
  sem st.name st.data img

/-- Modelled from the spec: the derived list of steps that participate in
a pipeline application, filtered by the enabled flag, in declared order. -/
def activeSteps (p : List Step) : List Step :=
  p.filter Step.active

/-- Modelled from the spec: apply the whole pipeline to an image,
walking the steps in declared order, applying each enabled step and
threading its output into the next. -/
def apply_all (sem : StepSem) : List Step → Image → Image
  | [], img => img
  | st :: rest, img =>
      apply_all sem rest (if st.active then applyStep sem st img else img)

theorem apply_all_eq_foldl (sem : StepSem) (steps : List Step) (img : Image) :
    apply_all sem steps img
      = (activeSteps steps).foldl (fun im st => applyStep sem st im) img := by
  induction steps generalizing img with
  | nil => rfl
  | cons st rest ih =>
      by_cases h : st.active = true
      · simp [apply_all, activeSteps, List.filter_cons, h, ih]
      · simp only [Bool.not_eq_true] at h
        simp [apply_all, activeSteps, List.filter_cons, h, ih]

/-- Lookup of a key in a data mapping. -/
def lookupKey (d : List (String × Val)) (k : String) : Option Val :=
  (d.find? (fun p => p.1 == k)).map (fun p => p.2)

/-- A concrete step-kernel assignment used for evaluation: it implements
the multiply transform of the Customize_Transforms notebook (pixel values
multiplied by the coefficient parameter) and treats every other step name
as an opaque kernel modelled by the identity. -/
def demoSem : StepSem := fun name data img =>
  match name, lookupKey data "coefficient" with
  | "multiply", some (.num c) => img.map (fun x => c * x)
  | _, _ => img

/-- Modelled from the spec: a bounded LRU memoization table with hit and
miss counters, keyed by frame number (matching the CacheInfo records the
caching notebook prints: hits, misses, maxsize, currsize). -/
structure Cache where
  hits : Nat
  misses : Nat
  maxsize : Nat
  entries : List (Nat × Image)
deriving DecidableEq

/-- A fresh cache: no entries and zeroed counters. -/
def Cache.empty (maxsize : Nat) : Cache :=
  { hits := 0, misses := 0, maxsize := maxsize, entries := [] }

/-- Consult the cache for a frame number. -/
def Cache.lookup (c : Cache) (n : Nat) : Option Image :=
  (c.entries.find? (fun p => p.1 == n)).map (fun p => p.2)

/-- Record a hit: bump the counter and move the entry to the front
(most-recently-used first). -/
def Cache.onHit (c : Cache) (n : Nat) (img : Image) : Cache :=
  { c with hits := c.hits + 1,
           entries := (n, img) :: c.entries.filter (fun p => p.1 != n) }

/-- Record a miss: bump the counter, store the freshly computed image at
the front and evict least-recently-used entries beyond capacity. -/
def Cache.onMiss (c : Cache) (n : Nat) (img : Image) : Cache :=
  { c with misses := c.misses + 1,
           entries := ((n, img) :: c.entries.filter (fun p => p.1 != n)).take c.maxsize }

/-- Every entry of the cache stores exactly the value of the memoized
function at its key. -/
def cacheValid (f : Nat → Image) (c : Cache) : Prop :=
  ∀ p ∈ c.entries, p.2 = f p.1

theorem cacheValid_empty (f : Nat → Image) (m : Nat) : cacheValid f (Cache.empty m) := by
  intro p hp
  simp [Cache.empty] at hp

theorem Cache.lookup_sound {f : Nat → Image} {c : Cache} {n : Nat} {img : Image}
    (hv : cacheValid f c) (h : c.lookup n = some img) : img = f n := by
  unfold Cache.lookup at h
  cases hfind : c.entries.find? (fun p => p.1 == n) with
  | none => rw [hfind] at h; simp at h
  | some p =>
      rw [hfind] at h
      simp at h
      have hmem := List.mem_of_find?_eq_some hfind
      have hkey : p.1 = n := by
        have := List.find?_some hfind
        simpa using this
      rw [← h, hv p hmem, hkey]

theorem cacheValid_onHit {f : Nat → Image} {c : Cache} {n : Nat} {img : Image}
    (hv : cacheValid f c) (him : img = f n) : cacheValid f (c.onHit n img) := by
  intro p hp
  simp only [Cache.onHit, List.mem_cons] at hp
  rcases hp with h | h
  · rw [h]; simpa using him
  · exact hv p (List.mem_of_mem_filter h)

theorem cacheValid_onMiss {f : Nat → Image} {c : Cache} {n : Nat} {img : Image}
    (hv : cacheValid f c) (him : img = f n) : cacheValid f (c.onMiss n img) := by
  intro p hp
  simp only [Cache.onMiss] at hp
  have hp' := (List.take_sublist _ _).subset hp
  rcases List.mem_cons.mp hp' with h | h
  · rw [h]; simpa using him
  · exact hv p (List.mem_of_mem_filter h)

/-- Modelled from the spec and the caching notebook: the observable state
of an image series with its two independent bounded caches, one for raw
file loads and one for transformed images. -/
structure ImgSeries where
  pipeline : List Step
  cacheOn : Bool
  files : Cache
  transforms : Cache
deriving DecidableEq

/-- Modelled from the spec: reading the raw image of a frame consults
the file cache (when caching is enabled) and otherwise delegates to the
frame source. -/
def readRawOp (src : Nat → Image) (s : ImgSeries) (n : Nat) : Image × ImgSeries :=
  if s.cacheOn then
    match s.files.lookup n with
    | some img => (img, { s with files := s.files.onHit n img })
    | none => (src n, { s with files := s.files.onMiss n (src n) })
  else (src n, s)

/-- Modelled from the spec: reading the transformed image of a frame
consults the transform cache (when caching is enabled); on a miss the raw
image is obtained through the file cache and the current pipeline is
applied to it, and the result is stored. -/
def readOp (sem : StepSem) (src : Nat → Image) (s : ImgSeries) (n : Nat) :
    Image × ImgSeries :=
  if s.cacheOn then
    match s.transforms.lookup n with
    | some img => (img, { s with transforms := s.transforms.onHit n img })
    | none =>
        let r := readRawOp src s n
        let img := apply_all sem r.2.pipeline r.1
        (img, { r.2 with transforms := r.2.transforms.onMiss n img })
  else (apply_all sem s.pipeline (src n), s)

/-- Replace the value stored at a key of a data mapping, or append the
binding when the key is new. -/
def setKey (d : List (String × Val)) (k : String) (v : Val) : List (String × Val) :=
  if d.any (fun p => p.1 == k) then d.map (fun p => if p.1 == k then (k, v) else p)
  else d ++ [(k, v)]

/-- A mutation of the configuration of one transform step: assigning a
parameter value, toggling the enabled state, or resetting the step to its
empty state (which implicitly disables it). -/
inductive Mutation where
  | setParam (stepName key : String) (v : Val)
  | setEnabled (stepName : String) (b : Bool)
  | reset (stepName : String)
deriving DecidableEq

/-- Effect of a mutation on a single step (steps with a different name
are untouched).  Setting a parameter also enables the step, matching the
notebooks where defining a parameter makes the transform active. -/
def mutateStep (st : Step) : Mutation → Step
  | .setParam nm k v =>
      if st.name == nm then { st with data := setKey st.data k v, enabled := true } else st
  | .setEnabled nm b =>
      if st.name == nm then { st with enabled := b } else st
  | .reset nm =>
      if st.name == nm then { st with data := [], enabled := false } else st

/-- Effect of a mutation on the whole pipeline. -/
def mutatePipeline (p : List Step) (m : Mutation) : List Step :=
  p.map (fun st => mutateStep st m)

/-- Modelled from the caching notebook: mutating any transform parameter
clears the transform cache entirely, counters included (the notebook
shows CacheInfo back at hits=0, misses=0, currsize=0 afterwards), while
the file cache is left untouched. -/
def mutateOp (s : ImgSeries) (m : Mutation) : ImgSeries :=
  { s with pipeline := mutatePipeline s.pipeline m,
           transforms := Cache.empty s.transforms.maxsize }

/-- Selector for clear_cache: one of the two caches, or both (the
argument-less call of the notebook). -/
inductive CacheSel where
  | files
  | transforms
  | both
deriving DecidableEq

/-- Modelled from the caching notebook: clear_cache empties the selected
cache(s), resetting entries and counters, and leaves the other cache
untouched. -/
def clearOp (s : ImgSeries) : CacheSel → ImgSeries
  | .files => { s with files := Cache.empty s.files.maxsize }
  | .transforms => { s with transforms := Cache.empty s.transforms.maxsize }
  | .both => { s with files := Cache.empty s.files.maxsize,
                      transforms := Cache.empty s.transforms.maxsize }

/-- A request or configuration action on an image series: raw read,
transformed read, configuration mutation, or cache clearing. -/
inductive Cmd where
  | read (n : Nat)
  | readRaw (n : Nat)
  | mutate (m : Mutation)
  | clearCache (sel : CacheSel)
deriving DecidableEq

/-- One step of the image-series state machine; read commands return the
requested image. -/
def stepCmd (sem : StepSem) (src : Nat → Image) (s : ImgSeries) : Cmd → ImgSeries × Option Image
  | .read n => ((readOp sem src s n).2, some (readOp sem src s n).1)
  | .readRaw n => ((readRawOp src s n).2, some (readRawOp src s n).1)
  | .mutate m => (mutateOp s m, none)
  | .clearCache sel => (clearOp s sel, none)

/-- Run a sequence of commands, collecting the returned images. -/
def runCmds (sem : StepSem) (src : Nat → Image) (s : ImgSeries) :
    List Cmd → ImgSeries × List (Option Image)
  | [] => (s, [])
  | c :: cs =>
      let r := stepCmd sem src s c
      let rest := runCmds sem src r.1 cs
      (rest.1, r.2 :: rest.2)

/-- The cache-coherency invariant: every file-cache entry stores the raw
image of its frame, and every transform-cache entry stores the image of
its frame transformed under the current pipeline configuration. -/
def SeriesInv (sem : StepSem) (src : Nat → Image) (s : ImgSeries) : Prop :=
  cacheValid src s.files
    ∧ cacheValid (fun n => apply_all sem s.pipeline (src n)) s.transforms

theorem readRawOp_pipeline (src : Nat → Image) (s : ImgSeries) (n : Nat) :
    (readRawOp src s n).2.pipeline = s.pipeline := by
  unfold readRawOp
  split
  · cases hl : s.files.lookup n <;> simp
  · rfl

theorem readRawOp_cacheOn (src : Nat → Image) (s : ImgSeries) (n : Nat) :
    (readRawOp src s n).2.cacheOn = s.cacheOn := by
  unfold readRawOp
  split
  · cases hl : s.files.lookup n <;> simp
  · rfl

theorem readRawOp_transforms (src : Nat → Image) (s : ImgSeries) (n : Nat) :
    (readRawOp src s n).2.transforms = s.transforms := by
  unfold readRawOp
  split
  · cases hl : s.files.lookup n <;> simp
  · rfl

theorem readRawOp_fst {src : Nat → Image} {s : ImgSeries} (n : Nat)
    (hf : cacheValid src s.files) : (readRawOp src s n).1 = src n := by
  unfold readRawOp
  split
  · cases hl : s.files.lookup n with
    | some img => simpa using Cache.lookup_sound hf hl
    | none => simp
  · rfl

theorem readRawOp_files_valid {src : Nat → Image} {s : ImgSeries} (n : Nat)
    (hf : cacheValid src s.files) : cacheValid src (readRawOp src s n).2.files := by
  unfold readRawOp
  split
  · cases hl : s.files.lookup n with
    | some img =>
        simpa using cacheValid_onHit hf (Cache.lookup_sound hf hl)
    | none => simpa using cacheValid_onMiss hf rfl
  · exact hf

theorem readOp_pipeline (sem : StepSem) (src : Nat → Image) (s : ImgSeries) (n : Nat) :
    (readOp sem src s n).2.pipeline = s.pipeline := by
  unfold readOp
  split
  · cases hl : s.transforms.lookup n with
    | some img => simp
    | none => simp [readRawOp_pipeline]
  · rfl

theorem readOp_cacheOn (sem : StepSem) (src : Nat → Image) (s : ImgSeries) (n : Nat) :
    (readOp sem src s n).2.cacheOn = s.cacheOn := by
  unfold readOp
  split
  · cases hl : s.transforms.lookup n with
    | some img => simp
    | none => simp [readRawOp_cacheOn]
  · rfl

theorem readOp_fst {sem : StepSem} {src : Nat → Image} {s : ImgSeries} (n : Nat)
    (h : SeriesInv sem src s) :
    (readOp sem src s n).1 = apply_all sem s.pipeline (src n) := by
  unfold readOp
  split
  · cases hl : s.transforms.lookup n with
    | some img => simpa using Cache.lookup_sound h.2 hl
    | none =>
        simp only
        rw [readRawOp_pipeline, readRawOp_fst n h.1]
  · rfl

theorem readOp_inv {sem : StepSem} {src : Nat → Image} {s : ImgSeries} (n : Nat)
    (h : SeriesInv sem src s) : SeriesInv sem src (readOp sem src s n).2 := by
  unfold readOp
  split
  · cases hl : s.transforms.lookup n with
    | some img =>
        refine ⟨h.1, ?_⟩
        simpa using cacheValid_onHit h.2 (Cache.lookup_sound h.2 hl)
    | none =>
        constructor
        · simpa using readRawOp_files_valid n h.1
        · simp only [readRawOp_pipeline]
          exact cacheValid_onMiss
            (by simpa [readRawOp_transforms, readRawOp_pipeline] using h.2)
            (by rw [readRawOp_fst n h.1])
  · exact h

theorem readOp_uncached (sem : StepSem) (src : Nat → Image) (s : ImgSeries) (n : Nat)
    (hc : s.cacheOn = false) :
    readOp sem src s n = (apply_all sem s.pipeline (src n), s) := by
  unfold readOp
  rw [hc]
  simp

theorem readRawOp_uncached (src : Nat → Image) (s : ImgSeries) (n : Nat)
    (hc : s.cacheOn = false) : readRawOp src s n = (src n, s) := by
  unfold readRawOp
  rw [hc]
  simp

theorem mutateOp_fields (s : ImgSeries) (m : Mutation) :
    (mutateOp s m).pipeline = mutatePipeline s.pipeline m
      ∧ (mutateOp s m).files = s.files
      ∧ (mutateOp s m).transforms = Cache.empty s.transforms.maxsize
      ∧ (mutateOp s m).cacheOn = s.cacheOn :=
  ⟨rfl, rfl, rfl, rfl⟩

theorem mutateOp_inv {sem : StepSem} {src : Nat → Image} {s : ImgSeries} (m : Mutation)
    (hf : cacheValid src s.files) : SeriesInv sem src (mutateOp s m) :=
  ⟨hf, cacheValid_empty _ _⟩

theorem clearOp_pipeline (s : ImgSeries) (sel : CacheSel) :
    (clearOp s sel).pipeline = s.pipeline := by
  cases sel <;> rfl

theorem clearOp_cacheOn (s : ImgSeries) (sel : CacheSel) :
    (clearOp s sel).cacheOn = s.cacheOn := by
  cases sel <;> rfl

theorem clearOp_inv {sem : StepSem} {src : Nat → Image} {s : ImgSeries} (sel : CacheSel)
    (h : SeriesInv sem src s) : SeriesInv sem src (clearOp s sel) := by
  cases sel
  · exact ⟨cacheValid_empty _ _, h.2⟩
  · exact ⟨h.1, cacheValid_empty _ _⟩
  · exact ⟨cacheValid_empty _ _, cacheValid_empty _ _⟩

/-- The central agreement lemma: from any state satisfying the cache
invariant and any state with the same pipeline but caching turned off,
every command sequence produces identical outputs. -/
theorem runCmds_agree (sem : StepSem) (src : Nat → Image) (cmds : List Cmd)
    (s t : ImgSeries) (hInv : SeriesInv sem src s) (hp : t.pipeline = s.pipeline)
    (ht : t.cacheOn = false) :
    (runCmds sem src s cmds).2 = (runCmds sem src t cmds).2 := by
  induction cmds generalizing s t with
  | nil => rfl
  | cons c cs ih =>
      cases c with
      | read n =>
          simp only [runCmds, stepCmd, readOp_uncached sem src t n ht]
          congr 1
          · rw [readOp_fst n hInv, hp]
          · exact ih (readOp sem src s n).2 t (readOp_inv n hInv)
              (by rw [hp, readOp_pipeline]) ht
      | readRaw n =>
          simp only [runCmds, stepCmd, readRawOp_uncached src t n ht]
          congr 1
          · rw [readRawOp_fst n hInv.1]
          · refine ih (readRawOp src s n).2 t ?_ ?_ ht
            · exact ⟨readRawOp_files_valid n hInv.1,
                by simpa [readRawOp_transforms, readRawOp_pipeline] using hInv.2⟩
            · rw [hp, readRawOp_pipeline]
      | mutate m =>
          simp only [runCmds, stepCmd]
          congr 1
          exact ih (mutateOp s m) (mutateOp t m) (mutateOp_inv m hInv.1)
            (by simp [mutateOp, hp]) (by simp [mutateOp, ht])
      | clearCache sel =>
          simp only [runCmds, stepCmd]
          congr 1
          exact ih (clearOp s sel) (clearOp t sel) (clearOp_inv sel hInv)
            (by rw [clearOp_pipeline, clearOp_pipeline, hp]) (by rw [clearOp_cacheOn]; exact ht)

/-- The transform order the package ships with, as the Customize
notebook prints it from CONFIG. -/
def defaultOrder : List String :=
  ["grayscale", "rotation", "crop", "filter", "subtraction", "threshold"]

/-- Modelled from the spec: the process-wide ordered registry of step
types, made explicit as an object read at pipeline construction time. -/
structure Registry where
  order : List String
deriving DecidableEq

/-- Insert a name at a requested position of the declared order; a
position beyond the end appends, as Python list insertion does. -/
def insertName (l : List String) (i : Nat) (nm : String) : List String :=
  l.take i ++ nm :: l.drop i

/-- Modelled from the spec and the Customize notebook: add_transform
registers a new step type, at the requested order when one is given and
at the end otherwise. -/
def add_transform (r : Registry) (nm : String) (ord : Option Nat) : Registry :=
  match ord with
  | some i => ⟨insertName r.order i nm⟩
  | none => ⟨r.order ++ [nm]⟩

/-- Modelled from the spec and the Customize notebook: remove_transform
removes a step type from the registry. -/
def remove_transform (r : Registry) (nm : String) : Registry :=
  ⟨r.order.filter (fun x => x != nm)⟩

/-- A freshly constructed step of a pipeline: empty data, disabled. -/
def mkStep (nm : String) : Step :=
  { name := nm, enabled := false, data := [] }

/-- Modelled from the spec: a pipeline snapshots the registry at
construction time, one fresh step per registered name, in declared
order. -/
def mkPipeline (r : Registry) : List Step :=
  r.order.map mkStep

/-- A python session: the mutable process-wide registry together with
the pipelines of the image-series instances constructed so far. -/
structure Session where
  registry : Registry
  instances : List (List Step)
deriving DecidableEq

/-- Constructing an image series appends a pipeline built from the
current registry. -/
def constructSeries (s : Session) : Session :=
  { s with instances := s.instances ++ [mkPipeline s.registry] }

/-- add_transform at the session level mutates only the registry. -/
def sessionAdd (s : Session) (nm : String) (ord : Option Nat) : Session :=
  { s with registry := add_transform s.registry nm ord }

/-- remove_transform at the session level mutates only the registry. -/
def sessionRemove (s : Session) (nm : String) : Session :=
  { s with registry := remove_transform s.registry nm }

/-- Modelled from the spec: errors of the persistence round trips. -/
inductive LoadError where
  | unknownStepType
  | missingMetadata
  | corruptMetadata
  | missingResults
deriving DecidableEq

/-- The saved configuration of one transform step: its name, enabled
flag and serialized data mapping. -/
structure StepConfig where
  name : String
  enabled : Bool
  data : List (String × Val)
deriving DecidableEq

/-- Modelled from the spec: loading a saved pipeline configuration
reconstructs the steps; a saved step name not present in the current
registry fails the whole load with UnknownStepTypeError rather than
being silently skipped, and no partial configuration is returned. -/
def load_transforms (registry : List String) : List StepConfig → Except LoadError (List Step)
  | [] => .ok []
  | c :: rest =>
      if registry.contains c.name then
        match load_transforms registry rest with
        | .ok steps => .ok ({ name := c.name, enabled := c.enabled,
                              data := from_mapping c.data } :: steps)
        | .error e => .error e
      else .error .unknownStepType

/-- Modelled from the spec: kinds of analyses shipped with the package. -/
inductive AnalysisKind where
  | greyLevel
  | contourTracking
  | front1d
  | flicker
deriving DecidableEq

/-- Modelled from the spec and the README: contour tracking carries
cross-frame state and declares itself non-parallelizable; the per-frame
computations of the other analyses are independent. -/
def parallelizable : AnalysisKind → Bool
  | .contourTracking => false
  | _ => true

/-- Modelled from the spec: error raised when parallel mode is requested
for an analysis kind that cannot run in parallel. -/
inductive RunError where
  | unsupportedMode
deriving DecidableEq

/-- The tabular result store: rows indexed by frame number. -/
abbrev ResultRows := List (Nat × Int)

/-- Re-running overwrites rows of the computed range only: rows outside
the newly computed frame numbers are kept. -/
def mergeRows (old new : ResultRows) : ResultRows :=
  old.filter (fun p => !(new.any (fun q => q.1 == p.1))) ++ new

/-- Modelled from the spec: the analysis engine state the claims are
about, holding the pipeline configuration of its image series, the
analysis parameters and the result store. -/
structure Engine where
  pipeline : List Step
  params : List (String × Val)
  results : ResultRows
deriving DecidableEq

/-- Modelled from the spec: run the batch loop over the requested frame
numbers.  When parallel mode is requested for a non-parallelizable
analysis the call fails fast with UnsupportedModeError before any frame
is analyzed, returning the engine unchanged; otherwise every requested
row is computed and merged into the results. -/
def runAnalysis (kind : AnalysisKind) (parallel : Bool) (frames : List Nat)
    (compute : Nat → Int) (e : Engine) : Engine × Option RunError :=
  if parallel && !parallelizable kind then (e, some .unsupportedMode)
  else ({ e with results := mergeRows e.results (frames.map (fun n => (n, compute n))) },
        none)

/-- Modelled from the spec: compute the outputs of a single row for
interactive preview, without mutating the results; the per-analysis
numeric kernel is an opaque collaborator mapping the transformed image to
the row value. -/
def analyze_live (sem : StepSem) (src : Nat → Image) (kernel : Image → Int)
    (e : Engine) (n : Nat) : Int :=
  kernel (apply_all sem e.pipeline (src n))

/-- Modelled from the spec and the interactive GreyLevel notebook: a live
inspection analyzes the displayed frames one by one; with the save option
the previewed rows are transferred to the results, overwriting any
pre-existing rows, and without it the engine is left untouched. -/
def inspectLive (sem : StepSem) (src : Nat → Image) (kernel : Image → Int)
    (e : Engine) (frames : List Nat) (save : Bool) : Engine × ResultRows :=
  let rows := frames.map (fun n => (n, analyze_live sem src kernel e n))
  (if save then { e with results := rows } else e, rows)

/-- The saved result files: the tabular data and the metadata record
embedding the transform configuration and the analysis parameters in
force at run time. -/
structure SavedResults where
  data : ResultRows
  transformConfig : List StepConfig
  analysisParams : List (String × Val)
deriving DecidableEq

/-- Modelled from the notebook of the GreyLevel examples, which states
that regenerate is equivalent to calling results.load() together with
load_transforms, the transforms being taken from the saved metadata:
the pipeline and the analysis parameters are rebuilt from the metadata
and the result store is loaded from the saved tabular data.  Fails with
UnknownStepTypeError when the saved pipeline references a step type not
in the current registry. -/
def regenerate (registry : List String) (saved : SavedResults) (_e : Engine) :
    Except LoadError Engine :=
  match load_transforms registry saved.transformConfig with
  | .ok steps =>
      .ok { pipeline := steps, params := saved.analysisParams, results := saved.data }
  | .error err => .error err

/-- A concrete frame source used by the evaluation witnesses. -/
def srcEx : Nat → Image := fun n => [Int.ofNat n, Int.ofNat n + 1]

/-- A concrete cached image series with warm, coherent caches, used by
the evaluation witnesses. -/
def seriesEx : ImgSeries :=
  { pipeline := mkPipeline ⟨defaultOrder⟩,
    cacheOn := true,
    files := { hits := 1, misses := 2, maxsize := 16, entries := [(3, [3, 4])] },
    transforms := { hits := 4, misses := 2, maxsize := 16, entries := [(3, [3, 4])] } }

/-- C1 (cache transparency): for two image series configured with the
same pipeline and differing only in whether caching is enabled, any
sequence of raw-read, transformed-read, configuration-mutation and
cache-clearing commands returns exactly the same images; the cache can
change only hit/miss statistics, never any returned data. -/
theorem cache_transparency (sem : StepSem) (src : Nat → Image) (p : List Step)
    (msF msT : Nat) (cmds : List Cmd) :
    (runCmds sem src
        { pipeline := p, cacheOn := true,
          files := Cache.empty msF, transforms := Cache.empty msT } cmds).2
      = (runCmds sem src
        { pipeline := p, cacheOn := false,
          files := Cache.empty msF, transforms := Cache.empty msT } cmds).2 :=
  runCmds_agree sem src cmds _ _
    ⟨cacheValid_empty _ _, cacheValid_empty _ _⟩ rfl rfl

/-- C2 (invalidation on mutation): after any mutation of the parameter
data or enabled state of a transform step, the transform cache is empty,
so a subsequent transformed-image request for a previously cached frame
number recomputes the image under the new configuration; moreover the
mutated state satisfies the cache-coherency invariant, so no later read
can observe an image produced with the old parameters. -/
theorem invalidation_on_mutation (sem : StepSem) (src : Nat → Image) (s : ImgSeries)
    (m : Mutation) (n : Nat) (hf : cacheValid src s.files) :
    (mutateOp s m).transforms.entries = []
      ∧ (readOp sem src (mutateOp s m) n).1
          = apply_all sem (mutatePipeline s.pipeline m) (src n)
      ∧ SeriesInv sem src (mutateOp s m) :=
  ⟨rfl, readOp_fst n (mutateOp_inv m hf), mutateOp_inv m hf⟩

theorem seriesEx_files_valid : cacheValid srcEx seriesEx.files := by
  intro p hp
  simp only [seriesEx] at hp
  rw [List.mem_singleton] at hp
  subst hp
  decide

/-- Witness for C2 at the concrete series seriesEx, mutating the
rotation angle (as in the caching notebook) and re-reading a frame whose
transformed image was previously cached. -/
theorem invalidation_on_mutation_witness :
    cacheValid srcEx seriesEx.files
      ∧ ((mutateOp seriesEx (Mutation.setParam "rotation" "angle" (Val.num 2))).transforms.entries = []
          ∧ (readOp demoSem srcEx
                (mutateOp seriesEx (Mutation.setParam "rotation" "angle" (Val.num 2))) 3).1
              = apply_all demoSem
                  (mutatePipeline seriesEx.pipeline (Mutation.setParam "rotation" "angle" (Val.num 2)))
                  (srcEx 3)
          ∧ SeriesInv demoSem srcEx
              (mutateOp seriesEx (Mutation.setParam "rotation" "angle" (Val.num 2)))) :=
  ⟨seriesEx_files_valid, invalidation_on_mutation demoSem srcEx seriesEx
      (Mutation.setParam "rotation" "angle" (Val.num 2)) 3 seriesEx_files_valid⟩

/-- C10 (independence of the two caches): a transform-parameter mutation
resets the transform cache (entries, hits and misses all to zero,
capacity kept) and leaves the file cache, entries and counters included,
untouched; clear_cache on files empties only the file cache; clear_cache
on transforms empties only the transform cache; clear_cache with no
selector empties both. -/
theorem cache_independence (s : ImgSeries) (m : Mutation) :
    ((mutateOp s m).transforms.hits = 0
      ∧ (mutateOp s m).transforms.misses = 0
      ∧ (mutateOp s m).transforms.entries = []
      ∧ (mutateOp s m).transforms.maxsize = s.transforms.maxsize
      ∧ (mutateOp s m).files = s.files)
    ∧ ((clearOp s .files).files = Cache.empty s.files.maxsize
      ∧ (clearOp s .files).transforms = s.transforms)
    ∧ ((clearOp s .transforms).transforms = Cache.empty s.transforms.maxsize
      ∧ (clearOp s .transforms).files = s.files)
    ∧ ((clearOp s .both).files = Cache.empty s.files.maxsize
      ∧ (clearOp s .both).transforms = Cache.empty s.transforms.maxsize) :=
  ⟨⟨rfl, rfl, rfl, rfl, rfl⟩, ⟨rfl, rfl⟩, ⟨rfl, rfl⟩, ⟨rfl, rfl⟩⟩

theorem mkPipeline_names (r : Registry) : (mkPipeline r).map Step.name = r.order := by
  simp [mkPipeline, mkStep, List.map_map]
  exact List.map_id r.order

/-- C4 (registry snapshot at construction): add_transform and
remove_transform mutate only the registry, never the pipelines of
already-constructed series; a series constructed after add_transform
contains the new step at the requested position of its transform order,
and one constructed after remove_transform no longer contains it. -/
theorem registry_snapshot (s : Session) (nm : String) (i : Nat)
    (h : i ≤ s.registry.order.length) :
    (sessionAdd s nm (some i)).instances = s.instances
      ∧ (constructSeries (sessionAdd s nm (some i))).instances
          = s.instances ++ [mkPipeline (add_transform s.registry nm (some i))]
      ∧ ((mkPipeline (add_transform s.registry nm (some i))).map Step.name)[i]? = some nm
      ∧ (sessionRemove s nm).instances = s.instances
      ∧ (constructSeries (sessionRemove s nm)).instances
          = s.instances ++ [mkPipeline (remove_transform s.registry nm)]
      ∧ ∀ st ∈ mkPipeline (remove_transform s.registry nm), st.name ≠ nm := by
  refine ⟨rfl, rfl, ?_, rfl, rfl, ?_⟩
  · rw [mkPipeline_names]
    show (insertName s.registry.order i nm)[i]? = some nm
    unfold insertName
    rw [List.getElem?_append_right (by simp [Nat.min_eq_left h])]
    simp [List.length_take, Nat.min_eq_left h]
  · intro st hst
    simp only [mkPipeline, remove_transform, List.mem_map, List.mem_filter] at hst
    obtain ⟨x, ⟨hx, hxe⟩, rfl⟩ := hst
    simpa [mkStep] using hxe

/-- A concrete session holding one already-constructed series, used by
the evaluation witness of the registry-snapshot property. -/
def sessionEx : Session :=
  { registry := ⟨defaultOrder⟩, instances := [mkPipeline ⟨defaultOrder⟩] }

/-- Witness for C4: adding the multiply transform at order 1, as the
Customize_Transforms notebook does. -/
theorem registry_snapshot_witness :
    1 ≤ sessionEx.registry.order.length
      ∧ ((sessionAdd sessionEx "multiply" (some 1)).instances = sessionEx.instances
          ∧ (constructSeries (sessionAdd sessionEx "multiply" (some 1))).instances
              = sessionEx.instances
                  ++ [mkPipeline (add_transform sessionEx.registry "multiply" (some 1))]
          ∧ ((mkPipeline (add_transform sessionEx.registry "multiply" (some 1))).map
                Step.name)[1]? = some "multiply"
          ∧ (sessionRemove sessionEx "multiply").instances = sessionEx.instances
          ∧ (constructSeries (sessionRemove sessionEx "multiply")).instances
              = sessionEx.instances
                  ++ [mkPipeline (remove_transform sessionEx.registry "multiply")]
          ∧ ∀ st ∈ mkPipeline (remove_transform sessionEx.registry "multiply"),
              st.name ≠ "multiply") :=
  ⟨by decide, registry_snapshot sessionEx "multiply" 1 (by decide)⟩

/-- C7 (identity of the empty pipeline): apply_all applies exactly the
active steps in declared order, threading the output of each into the
next, and when zero steps are active it returns the input image
unchanged, whatever the step kernels are. -/
theorem empty_pipeline_identity (sem : StepSem) (steps : List Step) (img : Image) :
    apply_all sem steps img
        = (activeSteps steps).foldl (fun im st => applyStep sem st im) img
      ∧ (activeSteps steps = [] → apply_all sem steps img = img) := by
  refine ⟨apply_all_eq_foldl sem steps img, ?_⟩
  intro h
  rw [apply_all_eq_foldl, h]
  rfl

/-- Witness for C7: a freshly constructed default pipeline has no active
step and leaves a concrete image unchanged. -/
theorem empty_pipeline_identity_witness :
    activeSteps (mkPipeline ⟨defaultOrder⟩) = []
      ∧ apply_all demoSem (mkPipeline ⟨defaultOrder⟩) [10, 20, 30] = [10, 20, 30] :=
  ⟨by rfl, (empty_pipeline_identity demoSem (mkPipeline ⟨defaultOrder⟩) [10, 20, 30]).2 (by rfl)⟩

/-- C8 (unknown step type on load): loading a saved pipeline
configuration that references any step name absent from the current
registry fails with UnknownStepTypeError; the result is an error, not a
step list, so the unknown step is never skipped and no partial
configuration is applied. -/
theorem unknown_step_type_on_load (registry : List String) (saved : List StepConfig)
    (h : saved.any (fun c => !registry.contains c.name) = true) :
    load_transforms registry saved = .error .unknownStepType := by
  induction saved with
  | nil => simp at h
  | cons c rest ih =>
      simp only [List.any_cons, Bool.or_eq_true] at h
      unfold load_transforms
      by_cases hc : registry.contains c.name = true
      · have hrest : rest.any (fun c => !registry.contains c.name) = true := by
          rcases h with h | h
          · rw [hc] at h
            simp at h
          · exact h
        rw [if_pos hc, ih hrest]
      · rw [if_neg hc]

/-- A saved configuration containing the multiply step of the
Customize_Transforms notebook, which is not in the default registry. -/
def savedCfgEx : List StepConfig :=
  [ { name := "rotation", enabled := true, data := [("angle", Val.num (-66))] },
    { name := "multiply", enabled := true, data := [("coefficient", Val.num 2)] } ]

/-- Witness for C8: loading a configuration that mentions the
unregistered multiply step fails with UnknownStepTypeError. -/
theorem unknown_step_type_on_load_witness :
    savedCfgEx.any (fun c => !defaultOrder.contains c.name) = true
      ∧ load_transforms defaultOrder savedCfgEx = .error .unknownStepType :=
  ⟨by decide, unknown_step_type_on_load defaultOrder savedCfgEx (by decide)⟩

/-- C9 (non-parallelizable analyses fail fast): contour tracking
declares itself non-parallelizable, and requesting parallel mode for it
fails with UnsupportedModeError before any frame is analyzed, the result
store returned unchanged; grey-level analysis accepts parallel mode. -/
theorem non_parallelizable_fails_fast (frames : List Nat) (compute : Nat → Int)
    (e : Engine) :
    parallelizable .contourTracking = false
      ∧ runAnalysis .contourTracking true frames compute e = (e, some .unsupportedMode)
      ∧ (runAnalysis .greyLevel true frames compute e).2 = none := by
  refine ⟨rfl, ?_, ?_⟩ <;> simp [runAnalysis, parallelizable]

/-- C6 (live preview does not mutate results): a live inspection without
the save option computes and returns the previewed rows while leaving
the engine, its result store included, exactly as it was; the previewed
rows enter the results only with the explicit save option, which
transfers them wholesale. -/
theorem live_preview_no_mutation (sem : StepSem) (src : Nat → Image)
    (kernel : Image → Int) (e : Engine) (frames : List Nat) :
    (inspectLive sem src kernel e frames false).1 = e
      ∧ (inspectLive sem src kernel e frames false).2
          = frames.map (fun n => (n, analyze_live sem src kernel e n))
      ∧ (inspectLive sem src kernel e frames true).1.results
          = frames.map (fun n => (n, analyze_live sem src kernel e n))
      ∧ (inspectLive sem src kernel e frames true).1.pipeline = e.pipeline :=
  ⟨rfl, rfl, rfl, rfl⟩

/-- Concrete saved results used to settle the regenerate claims: a
two-row result table together with the transform configuration and
analysis parameters that produced it. -/
def savedResultsEx : SavedResults :=
  { data := [(0, 42), (1, 57)],
    transformConfig :=
      [ { name := "rotation", enabled := true, data := [("angle", Val.num (-66))] } ],
    analysisParams := [("zone 1", Val.vlist [0, 0, 10, 10])] }

/-- A freshly constructed analysis engine with an empty result store. -/
def engineEx : Engine := { pipeline := [], params := [], results := [] }

/-- C3 counterexample: regenerate alone, without any explicit load() or
run(), already repopulates the result store from the saved tabular data
(regenerate is documented in the GreyLevel example notebook as
equivalent to results.load() plus loading the transforms from the
metadata), so the result store of a fresh engine is not empty after
regenerate, contradicting the claim that only the pipeline configuration
and the analysis parameters are rebuilt. -/
theorem regenerate_repopulates_results :
    (regenerate defaultOrder savedResultsEx engineEx).map Engine.results
        = .ok [(0, 42), (1, 57)]
      ∧ ((Except.ok [(0, 42), (1, 57)] : Except LoadError ResultRows)
          ≠ .ok ([] : ResultRows)) := by
  refine ⟨rfl, ?_⟩
  intro hcontra
  simp at hcontra

/-- C3 amended: regenerate(saved_metadata) rebuilds the transform
pipeline and the analysis parameters from the saved metadata AND loads
the saved result table into the result store (it is equivalent to an
explicit load() combined with reconstructing the transforms from
metadata); single-frame recomputation is possible afterwards. -/
theorem regenerate_rebuilds_config_and_loads (registry : List String)
    (saved : SavedResults) (e : Engine) (steps : List Step)
    (h : load_transforms registry saved.transformConfig = .ok steps) :
    regenerate registry saved e
      = .ok { pipeline := steps, params := saved.analysisParams,
              results := saved.data } := by
  unfold regenerate
  rw [h]

/-- Witness for the amended C3 at the concrete saved results. -/
theorem regenerate_rebuilds_config_and_loads_witness :
    load_transforms defaultOrder savedResultsEx.transformConfig
        = .ok [ { name := "rotation", enabled := true,
                  data := [("angle", Val.num (-66))] } ]
      ∧ regenerate defaultOrder savedResultsEx engineEx
        = .ok { pipeline := [ { name := "rotation", enabled := true,
                                data := [("angle", Val.num (-66))] } ],
                params := savedResultsEx.analysisParams,
                results := savedResultsEx.data } :=
  ⟨by rfl, regenerate_rebuilds_config_and_loads defaultOrder savedResultsEx engineEx
      [ { name := "rotation", enabled := true, data := [("angle", Val.num (-66))] } ]
      (by rfl)⟩

/-- C5 counterexample: the crop zone of the interactive notebook is the
tuple (187, 183, 410, 409) at save time and comes back from the JSON
file as the list [187, 183, 410, 409], so the save/reset/load round trip
does not restore the data of the step to a value equal to the one in
force at save time for tuple-valued short numeric sequences. -/
theorem transform_roundtrip_cex :
    from_mapping (to_mapping [("zone", Val.vtuple [187, 183, 410, 409])])
      ≠ [("zone", Val.vtuple [187, 183, 410, 409])] := by
  decide

/-- C5 amended: the save/load round trip of a transform configuration
restores the data of each step up to JSON normalization of the values
(tuples and ranges come back as lists holding the same elements), and
restores it exactly whenever every parameter value is JSON-native
(scalars and lists, the empty configuration included). -/
theorem transform_roundtrip (d : List (String × Val)) :
    from_mapping (to_mapping d) = d.map (fun p => (p.1, p.2.toJson))
      ∧ ((d.all fun p => p.2.jsonNormal) = true → from_mapping (to_mapping d) = d) := by
  refine ⟨rfl, ?_⟩
  induction d with
  | nil => intro _; rfl
  | cons q rest ih =>
      intro h
      simp only [List.all_cons, Bool.and_eq_true] at h
      show (q.1, q.2.toJson) :: to_mapping rest = q :: rest
      rw [Val.toJson_of_jsonNormal q.2 h.1]
      exact congrArg (List.cons q) (ih h.2)

/-- A concrete filter/subtraction style configuration whose values are
all JSON-native: a string, a number, a boolean and a list. -/
def dataScalarsEx : List (String × Val) :=
  [("type", Val.str "gaussian"), ("size", Val.num 3),
   ("relative", Val.bool true), ("reference", Val.vlist [0, 1, 2])]

/-- Witness for the amended C5 at a JSON-native configuration. -/
theorem transform_roundtrip_witness :
    (dataScalarsEx.all fun p => p.2.jsonNormal) = true
      ∧ from_mapping (to_mapping dataScalarsEx) = dataScalarsEx :=
  ⟨by decide, (transform_roundtrip dataScalarsEx).2 (by decide)⟩
